import Mathlib

/-!
Shallow embedding of the `mq-update` self-update pipeline (`src/main.rs`)
and verification of its specification claims.

The embedding models:
* string utilities used by the program (`starts_with`, `trim_start_matches`,
  `split_whitespace`, `eq_ignore_ascii_case`, `Path::with_extension`, `join`);
* the release-URL construction of `get_latest_release`;
* the current-version probe `get_binary_version`;
* the asset selection of `main`;
* the filesystem effect of the backup/temp-write/rename/cleanup sequence of
  `download_and_replace`, with fault injection at each fallible step;
* the observable stage trace of `main` / `download_and_replace`.
-/

namespace MqUpdate

/-- ASCII lowercase of a character, as Rust's `to_ascii_lowercase`. -/
def asciiLower (c : Char) : Char :=
  if 'A' ≤ c ∧ c ≤ 'Z' then Char.ofNat (c.toNat + 32) else c

/-- Rust `str::eq_ignore_ascii_case`. -/
def eq_ignore_ascii_case (a b : String) : Bool :=
  a.data.map asciiLower == b.data.map asciiLower

/-- Rust `str::starts_with(c : char)`. -/
def startsWithChar (s : String) (c : Char) : Bool :=
  match s.data with
  | [] => false
  | a :: _ => a == c

/-- Rust `str::trim_start_matches('v')`: drop every leading `'v'`. -/
def trim_start_matches_v (s : String) : String :=
  String.mk (s.data.dropWhile (fun c => c == 'v'))

/-- Rust `str::trim`: drop leading and trailing whitespace. -/
def rust_trim (s : String) : String :=
  String.mk (((s.data.dropWhile Char.isWhitespace).reverse.dropWhile Char.isWhitespace).reverse)

/-- Whitespace-separated tokens of a character list; `acc` holds the
characters of the token currently being read, in reverse. -/
def split_ws_chars : List Char → List Char → List (List Char)
  | [], [] => []
  | [], acc => [acc.reverse]
  | c :: cs, acc =>
    if c.isWhitespace then
      match acc with
      | [] => split_ws_chars cs []
      | _ :: _ => acc.reverse :: split_ws_chars cs []
    else split_ws_chars cs (c :: acc)

/-- Rust `str::split_whitespace`: the whitespace-separated tokens, with no
empty tokens. -/
def split_whitespace (s : String) : List String :=
  (split_ws_chars s.data []).map String.mk

/-- Position of the last `'.'` of a file name that is not its leading
character; `none` when the name has no such dot (Rust `Path::extension`
finds an extension exactly when such a position exists). -/
def lastDotPos (cs : List Char) : Option Nat :=
  ((List.range cs.length).filter (fun i => decide (0 < i) && cs.getD i ' ' == '.')).getLast?

/-- Rust `Path::file_stem` on a plain file name. -/
def stemOf (cs : List Char) : List Char :=
  match lastDotPos cs with
  | none => cs
  | some i => cs.take i

/-- Rust `Path::with_extension` on a plain file name, for a nonempty
extension: the stem followed by `"." ++ ext`. -/
def withExtension (s ext : String) : String :=
  String.mk (stemOf s.data) ++ "." ++ ext

/-- Rust `Vec::join(", ")`. -/
def joinComma : List String → String
  | [] => ""
  | [s] => s
  | s :: rest => s ++ ", " ++ joinComma rest

/-- `starts_list p s` holds when `p` is an initial segment of `s`. -/
def starts_list : List Char → List Char → Bool
  | [], _ => true
  | _ :: _, [] => false
  | a :: as, b :: bs => a == b && starts_list as bs

/-- `contains_list p s` holds when `p` occurs contiguously inside `s`. -/
def contains_list (pat : List Char) : List Char → Bool
  | [] => starts_list pat []
  | c :: rest => starts_list pat (c :: rest) || contains_list pat rest

/-- `mentions msg needle`: the text `needle` occurs inside the text `msg`. -/
def mentions (msg needle : String) : Bool :=
  contains_list needle.data msg.data

/-! ### Version resolution (`get_latest_release`, lines 85-98) -/

/-- Tag normalisation of `get_latest_release`: keep the requested version if
it already starts with `'v'`, otherwise prefix `"v"`. -/
def normalize_tag (version : String) : String :=
  if startsWithChar version 'v' then version else "v" ++ version

/-- The URL requested by `get_latest_release`: the tag endpoint for the
normalised tag when a target version is given, the latest-release endpoint
otherwise. -/
def release_url (repo : String) (target_version : Option String) : String :=
  match target_version with
  | some version =>
    "https://api.github.com/repos/" ++ repo ++ "/releases/tags/" ++ normalize_tag version
  | none => "https://api.github.com/repos/" ++ repo ++ "/releases/latest"

/-! ### Current-version probe (`get_binary_version`, lines 60-83) -/

/-- Outcome of spawning `<binary> --version`: the spawn itself may fail, or
the process exits with a success flag and captured stdout. -/
inductive SpawnResult where
  | launch_error : SpawnResult
  | output : Bool → String → SpawnResult

/-- `get_binary_version`: `Ok(None)` when the spawn fails or the process
exits unsuccessfully; otherwise the last whitespace-separated token of
stdout (an error when stdout has no token). -/
def get_binary_version (r : SpawnResult) : Except String (Option String) :=
  match r with
  | SpawnResult.launch_error => Except.ok none
  | SpawnResult.output false _ => Except.ok none
  | SpawnResult.output true stdout =>
    match (split_whitespace stdout).getLast? with
    | none => Except.error "Could not parse version from output"
    | some v => Except.ok (some (rust_trim v))

/-- The up-to-date test of `main` (line 486):
`!is_new_install && !args.force && current_version.as_deref() == Some(target_version)`. -/
def up_to_date_skip (is_new force : Bool) (current : Option String) (target : String) : Bool :=
  !is_new && !force && current == some target

/-! ### Asset selection (`main`, lines 498-517) -/

/-- A release asset: `{ name, browser_download_url }`. -/
structure Asset where
  name : String
  browser_download_url : String
deriving DecidableEq

/-- Release metadata: `{ tag_name, assets }`. -/
structure Release where
  tag_name : String
  assets : List Asset
deriving DecidableEq

/-- The error text built by `main` when no asset matches:
`"Could not find binary for architecture: {arch}. Available assets: {names}"`. -/
def asset_not_found_msg (arch : String) (assets : List Asset) : String :=
  "Could not find binary for architecture: " ++ arch ++ ". Available assets: " ++
    joinComma (assets.map (fun a => a.name))

/-- Asset selection of `main`: first asset whose name equals
`binary_name ++ "-" ++ arch`, else the not-found error. -/
def select_asset (assets : List Asset) (binary_name arch : String) : Except String Asset :=
  match assets.find? (fun a => a.name == binary_name ++ "-" ++ arch) with
  | some a => Except.ok a
  | none => Except.error (asset_not_found_msg arch assets)

/-! ### Filesystem model of the replacement sequence
(`download_and_replace`, lines 302-364) -/

/-- A filesystem: a partial map from paths to file contents (byte lists). -/
abbrev FS := String → Option (List Nat)

/-- Create or overwrite the file at `p`. -/
def FS.set (fs : FS) (p : String) (b : List Nat) : FS :=
  fun q => if q = p then some b else fs q

/-- Delete the file at `p` (no-op when absent, as the guarded
`fs::remove_file` calls). -/
def FS.remove (fs : FS) (p : String) : FS :=
  fun q => if q = p then none else fs q

/-- Create or overwrite at `p` when bytes are given, leave the filesystem
alone otherwise. -/
def FS.setOpt (fs : FS) (p : String) : Option (List Nat) → FS
  | none => fs
  | some b => FS.set fs p b

/-- The backup step: when the target exists, `fs::copy` it to the backup
path; otherwise do nothing. -/
def backup_step (fs : FS) (mq_path backup_path : String) : FS :=
  match fs mq_path with
  | some b => FS.set fs backup_path b
  | none => fs

/-- A fault injected into the replacement sequence. A failing `fs::copy` or
`fs::write` may leave partial content at its destination path (`some bs`) or
no file at all (`none`); a failing `fs::rename` is atomic and changes
nothing. -/
inductive ReplaceFault where
  | at_backup_copy : Option (List Nat) → ReplaceFault
  | at_temp_write : Option (List Nat) → ReplaceFault
  | at_rename : ReplaceFault

/-- The filesystem effect of the replacement sequence of
`download_and_replace` with the downloaded bytes in hand: backup copy,
stale-temp cleanup, temp write, atomic rename onto the target, backup
removal. `fault` injects a failure at one of the three fallible steps; the
`Bool` reports success. -/
def replace_run (fs0 : FS) (mq_path : String) (new_bytes : List Nat)
    (fault : Option ReplaceFault) : FS × Bool :=
  let backup_path := withExtension mq_path "bak"
  let temp_path := withExtension mq_path "tmp"
  match fault with
  | some (ReplaceFault.at_backup_copy left) =>
    (if (fs0 mq_path).isSome then FS.setOpt fs0 backup_path left else fs0, false)
  | some (ReplaceFault.at_temp_write left) =>
    (FS.setOpt (FS.remove (backup_step fs0 mq_path backup_path) temp_path) temp_path left,
      false)
  | some ReplaceFault.at_rename =>
    (FS.set (FS.remove (backup_step fs0 mq_path backup_path) temp_path) temp_path new_bytes,
      false)
  | none =>
    let fs3 := FS.set (FS.remove (backup_step fs0 mq_path backup_path) temp_path)
      temp_path new_bytes
    (FS.remove (FS.setOpt (FS.remove fs3 temp_path) mq_path (fs3 temp_path)) backup_path,
      true)

/-! ### Observable stage trace of the pipeline -/

/-- Observable pipeline events, in the vocabulary of the specification's
state machine. `verifying` is the spec's post-replace verification stage; it
is part of the vocabulary so that its absence from every trace can be
stated. -/
inductive Event where
  | resolving
  | already_up_to_date
  | select_asset_stage
  | asset_missing
  | home_missing
  | create_dir_all : String → Event
  | confirm_prompt
  | cancelled
  | downloading
  | backing_up
  | writing_temp
  | renaming
  | cleaning_backup
  | verifying
  | report_installed
  | report_updated
  | report_current
deriving DecidableEq

/-- The confirmation test of `download_and_replace` (line 225): proceed
exactly when the trimmed input is empty or equals `"y"` ignoring ASCII
case. -/
def confirm_accepts (input : String) : Bool :=
  (rust_trim input == "") || eq_ignore_ascii_case (rust_trim input) "y"

/-- Stage trace of `download_and_replace` together with its success flag:
when neither `force` nor `is_new_install`, the confirmation prompt is shown
first and a declined prompt cancels the run before the download; otherwise
the prompt is skipped and the run downloads and replaces. -/
def download_and_replace_tr (force is_new : Bool) (input : String) : List Event × Bool :=
  if !force && !is_new then
    if confirm_accepts input then
      ([Event.confirm_prompt, Event.downloading, Event.backing_up, Event.writing_temp,
        Event.renaming, Event.cleaning_backup], true)
    else
      ([Event.confirm_prompt, Event.cancelled], false)
  else
    ([Event.downloading, Event.backing_up, Event.writing_temp, Event.renaming,
      Event.cleaning_backup], true)

/-- The replacement call of `main` followed by its final report: a
successful `download_and_replace` is followed by the installed/updated
report, a cancelled one propagates as an error with no report. -/
def dr_and_report (force is_new : Bool) (input : String) : List Event :=
  (download_and_replace_tr force is_new input).1 ++
    (if (download_and_replace_tr force is_new input).2 then
      [if is_new then Event.report_installed else Event.report_updated]
    else [])

/-- Binary name of `main`: `"mq-" ++ sub` for a subcommand, else `"mq"`. -/
def binary_name_of (sub : Option String) : String :=
  match sub with
  | some s => "mq-" ++ s
  | none => "mq"

/-- The inputs `main` draws from its environment: CLI flags, the `which`
lookup, the probed current version, `HOME`, the fetched release, and the
confirmation line read from stdin. -/
structure MainEnv where
  subcommand : Option String
  target_version : Option String
  force : Bool
  current : Bool
  arch : String
  binary_path : Option String
  probed_version : Option String
  home : Option String
  release : Release
  confirm_input : String

/-- `current_version` as computed by `main`: absent on a new install,
otherwise the probed version. -/
def current_version_of (env : MainEnv) : Option String :=
  if env.binary_path.isNone then none else env.probed_version

/-- Observable stage trace of `main` (after the release fetch succeeded):
the `--current` early exit, the up-to-date skip, asset selection, the
default-install-directory creation on a new install, then the replacement
and final report. -/
def main_trace (env : MainEnv) : List Event :=
  if env.current then [Event.report_current]
  else
    Event.resolving ::
      (if up_to_date_skip env.binary_path.isNone env.force (current_version_of env)
          (trim_start_matches_v env.release.tag_name) then
        [Event.already_up_to_date]
      else
        Event.select_asset_stage ::
          (match select_asset env.release.assets (binary_name_of env.subcommand) env.arch with
          | Except.error _ => [Event.asset_missing]
          | Except.ok _ =>
            match env.binary_path with
            | some _ => dr_and_report env.force env.binary_path.isNone env.confirm_input
            | none =>
              match env.home with
              | none => [Event.home_missing]
              | some h =>
                Event.create_dir_all (h ++ "/.mq/bin") ::
                  dr_and_report env.force env.binary_path.isNone env.confirm_input))

/-! ### Helper lemmas -/

theorem data_append (s t : String) : (s ++ t).data = s.data ++ t.data := rfl

theorem set_ne (fs : FS) (p : String) (b : List Nat) (q : String) (h : q ≠ p) :
    FS.set fs p b q = fs q := by
  simp [FS.set, h]

theorem remove_ne (fs : FS) (p q : String) (h : q ≠ p) : FS.remove fs p q = fs q := by
  simp [FS.remove, h]

theorem remove_self (fs : FS) (p : String) : FS.remove fs p p = none := by
  simp [FS.remove]

theorem setOpt_ne (fs : FS) (p : String) (o : Option (List Nat)) (q : String) (h : q ≠ p) :
    FS.setOpt fs p o q = fs q := by
  cases o <;> simp [FS.setOpt, FS.set, h]

theorem backup_step_other (fs : FS) (mq bp q : String) (h : q ≠ bp) :
    backup_step fs mq bp q = fs q := by
  unfold backup_step
  cases fs mq <;> simp [set_ne _ _ _ _ h]

theorem tmp_ne_bak (p : String) : withExtension p "tmp" ≠ withExtension p "bak" := by
  intro h
  have h2 : (String.mk (stemOf p.data) ++ "." ++ "tmp").data
      = (String.mk (stemOf p.data) ++ "." ++ "bak").data := congrArg String.data h
  rw [data_append, data_append, data_append, data_append] at h2
  exact absurd (List.append_cancel_left h2) (by decide)

/-! ### Claim theorems -/

/-- Claim C1, counterexample. The claim quantifies over every run, but when
`targetPath` already carries the `tmp` extension the derived temp path
collides with the target: the stale-temp cleanup deletes the target and the
temp write overwrites it before the rename, so a rename-step failure leaves
the new bytes (not the old) at the target. Symmetrically, a `bak`-extension
target collides with the backup path, so a failing backup copy can leave
partial copy output at the target. -/
theorem C1_counterexample :
    ¬ ((replace_run (fun q => if q = "mq.tmp" then some [1] else none) "mq.tmp" [2]
        (some ReplaceFault.at_rename)).1 "mq.tmp"
      = (fun q => if q = "mq.tmp" then some ([1] : List Nat) else none) "mq.tmp")
  ∧ ¬ ((replace_run (fun q => if q = "mq.bak" then some [1] else none) "mq.bak" [2]
        (some (ReplaceFault.at_backup_copy (some [5])))).1 "mq.bak"
      = (fun q => if q = "mq.bak" then some ([1] : List Nat) else none) "mq.bak") := by
  exact ⟨by decide, by decide⟩

/-- Claim C1, amended: provided the derived temp and backup paths differ
from `targetPath` (i.e. the target's extension is neither `tmp` nor `bak`),
a failure at the backup-copy, temp-write, or rename step of the replacement
sequence leaves the bytes at `targetPath` unchanged. -/
theorem C1_amended (fs0 : FS) (p : String) (nb : List Nat) (f : ReplaceFault)
    (htmp : withExtension p "tmp" ≠ p) (hbak : withExtension p "bak" ≠ p) :
    (replace_run fs0 p nb (some f)).1 p = fs0 p := by
  have hp_bak : p ≠ withExtension p "bak" := Ne.symm hbak
  have hp_tmp : p ≠ withExtension p "tmp" := Ne.symm htmp
  cases f with
  | at_backup_copy left =>
    simp only [replace_run]
    split
    · exact setOpt_ne _ _ _ _ hp_bak
    · rfl
  | at_temp_write left =>
    simp only [replace_run]
    rw [setOpt_ne _ _ _ _ hp_tmp, remove_ne _ _ _ hp_tmp, backup_step_other _ _ _ _ hp_bak]
  | at_rename =>
    simp only [replace_run]
    rw [set_ne _ _ _ _ hp_tmp, remove_ne _ _ _ hp_tmp, backup_step_other _ _ _ _ hp_bak]

/-- Witness for the amended C1 at a concrete run. -/
theorem C1_amended_witness :
    (replace_run (fun q => if q = "mq" then some [1] else none) "mq" [2]
      (some (ReplaceFault.at_temp_write (some [9])))).1 "mq" = some [1] := by
  have h := C1_amended (fun q => if q = "mq" then some ([1] : List Nat) else none) "mq" [2]
    (ReplaceFault.at_temp_write (some [9])) (by decide) (by decide)
  simpa using h

/-- Claim C6, counterexample. On a target whose extension is already `tmp`,
the derived temp path equals the target itself, so after a fully successful
run the "temp path" still holds a file (the installed binary). -/
theorem C6_counterexample :
    ¬ ((replace_run (fun q => if q = "mq.tmp" then some [1] else none) "mq.tmp" [2] none).1
        (withExtension "mq.tmp" "tmp") = none) := by
  decide

/-- Claim C6, amended: provided the derived temp path differs from
`targetPath`, after a successful run of the replacement sequence no file
remains at the backup path or at the temp path. -/
theorem C6_amended (fs0 : FS) (p : String) (nb : List Nat)
    (htmp : withExtension p "tmp" ≠ p) :
    (replace_run fs0 p nb none).1 (withExtension p "bak") = none
  ∧ (replace_run fs0 p nb none).1 (withExtension p "tmp") = none := by
  constructor
  · simp only [replace_run]
    exact remove_self _ _
  · simp only [replace_run]
    rw [remove_ne _ _ _ (tmp_ne_bak p), setOpt_ne _ _ _ _ htmp]
    exact remove_self _ _

/-- Witness for the amended C6 at a concrete run. -/
theorem C6_amended_witness :
    (replace_run (fun q => if q = "mq" then some [1] else none) "mq" [2] none).1
      (withExtension "mq" "bak") = none
  ∧ (replace_run (fun q => if q = "mq" then some [1] else none) "mq" [2] none).1
      (withExtension "mq" "tmp") = none :=
  C6_amended (fun q => if q = "mq" then some ([1] : List Nat) else none) "mq" [2] (by decide)

/-- Claim C8: the version resolver keeps a requested tag that already starts
with `v`, prefixes `v` otherwise (so normalisation is idempotent), requests
exactly the normalised tag's endpoint, and requests the latest-release
endpoint when no tag is given. -/
theorem C8_resolver (repo v : String) :
    (startsWithChar v 'v' = true → normalize_tag v = v)
  ∧ (startsWithChar v 'v' = false → normalize_tag v = "v" ++ v)
  ∧ normalize_tag (normalize_tag v) = normalize_tag v
  ∧ release_url repo (some v)
      = "https://api.github.com/repos/" ++ repo ++ "/releases/tags/" ++ normalize_tag v
  ∧ release_url repo none = "https://api.github.com/repos/" ++ repo ++ "/releases/latest" := by
  refine ⟨fun h => by simp [normalize_tag, h], fun h => by simp [normalize_tag, h], ?_, rfl, rfl⟩
  cases h : startsWithChar v 'v' with
  | true => simp [normalize_tag, h]
  | false =>
    have hv : startsWithChar ("v" ++ v) 'v' = true := by
      have hd : ("v" ++ v).data = 'v' :: v.data := rfl
      simp [startsWithChar, hd]
    simp [normalize_tag, h, hv]

/-- Witness for C8 at a concrete tag without a `v` prefix. -/
theorem C8_resolver_witness :
    startsWithChar "0.5.12" 'v' = false ∧ normalize_tag "0.5.12" = "v" ++ "0.5.12" :=
  ⟨by decide, (C8_resolver "harehare/mq" "0.5.12").2.1 (by decide)⟩

/-- Claim C10: a failed spawn or an unsuccessful exit of the version query
yields `Ok(None)` (absence, not an error), and with an absent current
version the up-to-date skip can never fire. -/
theorem C10_probe_absence :
    get_binary_version SpawnResult.launch_error = Except.ok none
  ∧ (∀ out : String, get_binary_version (SpawnResult.output false out) = Except.ok none)
  ∧ (∀ (force : Bool) (target : String), up_to_date_skip false force none target = false) := by
  refine ⟨rfl, fun out => rfl, fun force target => ?_⟩
  simp [up_to_date_skip]

/-- Claim C9, counterexample. The input `" y "` is non-empty and is not
case-insensitively equal to `"y"`, yet the prompt accepts it (the code
compares the trimmed input), so the run proceeds instead of aborting. -/
theorem C9_counterexample :
    (" y " : String) ≠ ""
  ∧ eq_ignore_ascii_case " y " "y" = false
  ∧ download_and_replace_tr false false " y "
      = ([Event.confirm_prompt, Event.downloading, Event.backing_up, Event.writing_temp,
          Event.renaming, Event.cleaning_backup], true) := by
  exact ⟨by decide, by decide, by decide⟩

/-- Claim C9, amended: input whose trimmed form is empty is acceptance and
the replacement proceeds; input whose trimmed form is non-empty and differs
case-insensitively from `"y"` cancels the run at the prompt, before the
download and any filesystem mutation. -/
theorem C9_amended (input : String) :
    (rust_trim input = "" →
      download_and_replace_tr false false input
        = ([Event.confirm_prompt, Event.downloading, Event.backing_up, Event.writing_temp,
            Event.renaming, Event.cleaning_backup], true))
  ∧ (rust_trim input ≠ "" → eq_ignore_ascii_case (rust_trim input) "y" = false →
      download_and_replace_tr false false input
        = ([Event.confirm_prompt, Event.cancelled], false)) := by
  constructor
  · intro h
    simp [download_and_replace_tr, confirm_accepts, h]
  · intro h1 h2
    have hb : (rust_trim input == "") = false := by
      simpa using h1
    simp [download_and_replace_tr, confirm_accepts, hb, h2]

/-- Witness for the amended C9: a bare newline (pressing Enter) accepts. -/
theorem C9_amended_witness :
    download_and_replace_tr false false "\n"
      = ([Event.confirm_prompt, Event.downloading, Event.backing_up, Event.writing_temp,
          Event.renaming, Event.cleaning_backup], true) :=
  (C9_amended "\n").1 (by decide)

/-- The replacement-and-report phase always produces one of three traces:
prompt-accepted update, prompt-declined cancellation, or promptless
(forced / new-install) replacement. -/
theorem dr_cases (f n : Bool) (i : String) :
    dr_and_report f n i
      = [Event.confirm_prompt, Event.downloading, Event.backing_up, Event.writing_temp,
          Event.renaming, Event.cleaning_backup, Event.report_updated]
  ∨ dr_and_report f n i = [Event.confirm_prompt, Event.cancelled]
  ∨ dr_and_report f n i
      = [Event.downloading, Event.backing_up, Event.writing_temp, Event.renaming,
          Event.cleaning_backup, if n then Event.report_installed else Event.report_updated] := by
  by_cases hc : confirm_accepts i = true <;> cases f <;> cases n <;>
    simp [dr_and_report, download_and_replace_tr, hc]

/-- A fixed non-forced, non-new-install run that accepts the prompt and
performs an update: `mq` is installed at version `0.5.2` and the release is
`v0.5.12` with a matching Linux asset. -/
def sample_env_update : MainEnv :=
  ⟨none, none, false, false, "x86_64-unknown-linux-gnu", some "/usr/local/bin/mq",
    some "0.5.2", some "/home/user",
    ⟨"v0.5.12", [⟨"mq-x86_64-unknown-linux-gnu", "u"⟩]⟩, "\n"⟩

/-- The same environment with the installed version equal to the release
version, so the up-to-date skip fires. -/
def sample_env_uptodate : MainEnv :=
  ⟨none, none, false, false, "x86_64-unknown-linux-gnu", some "/usr/local/bin/mq",
    some "0.5.12", some "/home/user",
    ⟨"v0.5.12", [⟨"mq-x86_64-unknown-linux-gnu", "u"⟩]⟩, "\n"⟩

/-- The same release installed fresh: the binary is not on the search
path. -/
def sample_env_install : MainEnv :=
  ⟨none, none, false, false, "x86_64-unknown-linux-gnu", none,
    none, some "/home/user",
    ⟨"v0.5.12", [⟨"mq-x86_64-unknown-linux-gnu", "u"⟩]⟩, "\n"⟩

/-- Claim C2, counterexample. In a run that replaces the binary
(`renaming` occurs), no verification stage ever occurs: `main` never
re-invokes the installed binary after the replacement. -/
theorem C2_counterexample :
    Event.renaming ∈ main_trace sample_env_update
  ∧ Event.verifying ∉ main_trace sample_env_update := by
  exact ⟨by decide, by decide⟩

/-- Claim C2, amended: after the binary has been replaced the pipeline does
not re-invoke the installed binary and performs no verification; it directly
reports success (installed/updated), with no rollback or retry. -/
theorem C2_amended (env : MainEnv) :
    Event.verifying ∉ main_trace env
  ∧ (Event.renaming ∈ main_trace env →
      Event.report_installed ∈ main_trace env ∨ Event.report_updated ∈ main_trace env) := by
  unfold main_trace
  by_cases hcur : env.current
  · rw [if_pos hcur]
    exact ⟨by decide, by decide⟩
  rw [if_neg hcur]
  by_cases hskip : (up_to_date_skip env.binary_path.isNone env.force (current_version_of env)
      (trim_start_matches_v env.release.tag_name)) = true
  · rw [if_pos hskip]
    exact ⟨by decide, by decide⟩
  rw [if_neg hskip]
  cases hsel : select_asset env.release.assets (binary_name_of env.subcommand) env.arch with
  | error e =>
    simp only [hsel]
    exact ⟨by decide, by decide⟩
  | ok a =>
    simp only [hsel]
    cases hbp : env.binary_path with
    | some p =>
      simp only [hbp, Option.isNone_some]
      rcases dr_cases env.force false env.confirm_input with h | h | h <;> rw [h] <;>
        exact ⟨by decide, by decide⟩
    | none =>
      simp only [hbp, Option.isNone_none]
      cases hh : env.home with
      | none =>
        simp only [hh]
        exact ⟨by decide, by decide⟩
      | some hdir =>
        simp only [hh]
        rcases dr_cases env.force true env.confirm_input with h | h | h <;> rw [h] <;>
          exact ⟨by simp, by simp⟩

/-- Witness for the amended C2 at the sample accepted run. -/
theorem C2_amended_witness :
    Event.verifying ∉ main_trace sample_env_update
  ∧ (Event.report_installed ∈ main_trace sample_env_update
      ∨ Event.report_updated ∈ main_trace sample_env_update) :=
  ⟨(C2_amended sample_env_update).1, (C2_amended sample_env_update).2 (by decide)⟩

/-- Claim C3, counterexample. In a non-forced, non-new-install accepted run
both the download and the confirmation prompt occur, but the download does
not precede the prompt: the code prompts first and downloads afterwards,
against the spec's `Downloading → ConfirmingReplace` order. -/
theorem C3_counterexample :
    sample_env_update.force = false
  ∧ sample_env_update.binary_path.isNone = false
  ∧ Event.downloading ∈ main_trace sample_env_update
  ∧ Event.confirm_prompt ∈ main_trace sample_env_update
  ∧ ¬ ((main_trace sample_env_update).indexOf Event.downloading
        < (main_trace sample_env_update).indexOf Event.confirm_prompt) := by
  exact ⟨rfl, rfl, by decide, by decide, by decide⟩

/-- Claim C3, amended: in a non-forced, non-new-install run the stages occur
in the order resolving, asset selection, confirmation prompt, download,
backup, temp write, rename, cleanup, report — the prompt precedes the
download — and a declined prompt ends the trace at `cancelled`, before the
download and before any filesystem mutation stage. -/
theorem C3_amended (env : MainEnv) (p : String) (a : Asset)
    (hforce : env.force = false) (hbp : env.binary_path = some p) (hcur : env.current = false)
    (hskip : (env.probed_version == some (trim_start_matches_v env.release.tag_name)) = false)
    (hasset : select_asset env.release.assets (binary_name_of env.subcommand) env.arch
      = Except.ok a) :
    (confirm_accepts env.confirm_input = true →
      main_trace env
        = [Event.resolving, Event.select_asset_stage, Event.confirm_prompt, Event.downloading,
            Event.backing_up, Event.writing_temp, Event.renaming, Event.cleaning_backup,
            Event.report_updated])
  ∧ (confirm_accepts env.confirm_input = false →
      main_trace env
        = [Event.resolving, Event.select_asset_stage, Event.confirm_prompt, Event.cancelled]) := by
  have hnew : env.binary_path.isNone = false := by rw [hbp]; rfl
  constructor <;> intro hconf <;>
    simp [main_trace, hcur, hnew, hforce, current_version_of, up_to_date_skip, hskip, hasset,
      hbp, dr_and_report, download_and_replace_tr, hconf]

/-- Witness for the amended C3 at the sample accepted run. -/
theorem C3_amended_witness :
    main_trace sample_env_update
      = [Event.resolving, Event.select_asset_stage, Event.confirm_prompt, Event.downloading,
          Event.backing_up, Event.writing_temp, Event.renaming, Event.cleaning_backup,
          Event.report_updated] :=
  (C3_amended sample_env_update "/usr/local/bin/mq" ⟨"mq-x86_64-unknown-linux-gnu", "u"⟩
    rfl rfl rfl (by decide) rfl).1 (by decide)

/-- Claim C4: in a non-forced, non-new-install run the pipeline stops at
"already up to date" (no further stage, no filesystem mutation) exactly when
the probed current version equals the target version as strings; in
particular the sample run with current `0.5.2` and target `0.5.12` proceeds
with the update. -/
theorem C4_up_to_date (env : MainEnv) (p : String)
    (hforce : env.force = false) (hbp : env.binary_path = some p) (hcur : env.current = false) :
    (main_trace env = [Event.resolving, Event.already_up_to_date]
      ↔ env.probed_version = some (trim_start_matches_v env.release.tag_name))
  ∧ sample_env_update.probed_version = some "0.5.2"
  ∧ trim_start_matches_v sample_env_update.release.tag_name = "0.5.12"
  ∧ Event.select_asset_stage ∈ main_trace sample_env_update
  ∧ main_trace sample_env_update ≠ [Event.resolving, Event.already_up_to_date] := by
  have hnew : env.binary_path.isNone = false := by rw [hbp]; rfl
  refine ⟨⟨?_, ?_⟩, rfl, by decide, by decide, by decide⟩
  · intro h
    by_cases hv : env.probed_version = some (trim_start_matches_v env.release.tag_name)
    · exact hv
    · exfalso
      have hb : (env.probed_version == some (trim_start_matches_v env.release.tag_name))
          = false := by simpa using hv
      simp [main_trace, hcur, hnew, hforce, current_version_of, up_to_date_skip, hb] at h
  · intro hv
    have hb : (env.probed_version == some (trim_start_matches_v env.release.tag_name))
        = true := by rw [hv]; simp
    simp [main_trace, hcur, hnew, hforce, current_version_of, up_to_date_skip, hb]

/-- Witness for C4 at the sample up-to-date run. -/
theorem C4_up_to_date_witness :
    main_trace sample_env_uptodate = [Event.resolving, Event.already_up_to_date] :=
  ((C4_up_to_date sample_env_uptodate "/usr/local/bin/mq" rfl rfl rfl).1).mpr (by decide)

/-- Claim C7: on a new install (binary absent from the search path) the
default directory `$HOME/.mq/bin` is created recursively, the confirmation
prompt is skipped, and the final report is "installed", not "updated". -/
theorem C7_new_install (env : MainEnv) (hdir : String) (a : Asset)
    (hbp : env.binary_path = none) (hcur : env.current = false) (hhome : env.home = some hdir)
    (hasset : select_asset env.release.assets (binary_name_of env.subcommand) env.arch
      = Except.ok a) :
    main_trace env
      = [Event.resolving, Event.select_asset_stage, Event.create_dir_all (hdir ++ "/.mq/bin"),
          Event.downloading, Event.backing_up, Event.writing_temp, Event.renaming,
          Event.cleaning_backup, Event.report_installed]
  ∧ Event.confirm_prompt ∉ main_trace env
  ∧ Event.report_updated ∉ main_trace env := by
  have hnew : env.binary_path.isNone = true := by rw [hbp]; rfl
  have htr : main_trace env
      = [Event.resolving, Event.select_asset_stage, Event.create_dir_all (hdir ++ "/.mq/bin"),
          Event.downloading, Event.backing_up, Event.writing_temp, Event.renaming,
          Event.cleaning_backup, Event.report_installed] := by
    simp [main_trace, hcur, hnew, hbp, hhome, up_to_date_skip, hasset, current_version_of,
      dr_and_report, download_and_replace_tr]
  refine ⟨htr, ?_, ?_⟩ <;> rw [htr] <;> simp

/-- Witness for C7 at the sample new-install run. -/
theorem C7_new_install_witness :
    main_trace sample_env_install
      = [Event.resolving, Event.select_asset_stage,
          Event.create_dir_all ("/home/user" ++ "/.mq/bin"), Event.downloading,
          Event.backing_up, Event.writing_temp, Event.renaming, Event.cleaning_backup,
          Event.report_installed] :=
  (C7_new_install sample_env_install "/home/user" ⟨"mq-x86_64-unknown-linux-gnu", "u"⟩
    rfl rfl rfl rfl).1

theorem starts_self_append (p t : List Char) : starts_list p (p ++ t) = true := by
  induction p with
  | nil => rfl
  | cons a as ih => simp [starts_list, ih]

theorem contains_of_starts (p s : List Char) (h : starts_list p s = true) :
    contains_list p s = true := by
  cases s with
  | nil => simpa [contains_list] using h
  | cons c rest => simp [contains_list, h]

theorem contains_cons (p s : List Char) (c : Char) (h : contains_list p s = true) :
    contains_list p (c :: s) = true := by
  simp [contains_list, h]

theorem contains_append_left (p pre s : List Char) (h : contains_list p s = true) :
    contains_list p (pre ++ s) = true := by
  induction pre with
  | nil => simpa using h
  | cons c cs ih => simpa using contains_cons _ _ c ih

theorem contains_self_append (p t : List Char) : contains_list p (p ++ t) = true :=
  contains_of_starts _ _ (starts_self_append p t)

theorem contains_self (p : List Char) : contains_list p p = true := by
  have h := contains_self_append p []
  rwa [List.append_nil] at h

theorem mem_joinComma_contains (l : List String) (s : String) (h : s ∈ l) :
    contains_list s.data (joinComma l).data = true := by
  induction l with
  | nil => cases h
  | cons x xs ih =>
    rcases List.mem_cons.mp h with rfl | h'
    · cases xs with
      | nil => exact contains_self s.data
      | cons y ys =>
        show contains_list s.data (s ++ ", " ++ joinComma (y :: ys)).data = true
        have hd : (s ++ ", " ++ joinComma (y :: ys)).data
            = s.data ++ (", ".data ++ (joinComma (y :: ys)).data) := by
          rw [data_append, data_append, List.append_assoc]
        rw [hd]
        exact contains_self_append _ _
    · cases xs with
      | nil => cases h'
      | cons y ys =>
        show contains_list s.data (x ++ ", " ++ joinComma (y :: ys)).data = true
        have hd : (x ++ ", " ++ joinComma (y :: ys)).data
            = (x.data ++ ", ".data) ++ (joinComma (y :: ys)).data := by
          rw [data_append, data_append]
        rw [hd]
        exact contains_append_left _ _ _ (ih h')

/-- Claim C5, counterexample. With the spec's own example — one asset
`bin-x86_64-unknown-linux-gnu` and the triple `aarch64-apple-darwin` —
selection fails as claimed, but the error text does not carry the expected
asset name `bin-aarch64-apple-darwin`: it carries only the platform triple
(plus the available names). -/
theorem C5_counterexample :
    select_asset [⟨"bin-x86_64-unknown-linux-gnu", "u"⟩] "bin" "aarch64-apple-darwin"
      = Except.error (asset_not_found_msg "aarch64-apple-darwin"
          [⟨"bin-x86_64-unknown-linux-gnu", "u"⟩])
  ∧ mentions (asset_not_found_msg "aarch64-apple-darwin"
        [⟨"bin-x86_64-unknown-linux-gnu", "u"⟩])
      ("bin" ++ "-" ++ "aarch64-apple-darwin") = false := by
  exact ⟨rfl, by decide⟩

/-- Claim C5, amended: selection returns an asset exactly named
`binaryName ++ "-" ++ platformTriple` (equality, no fuzzy matching); when no
asset has that name it fails with an error carrying the platform triple and
the full list of available asset names. -/
theorem C5_amended (assets : List Asset) (bn arch : String) :
    (∀ a : Asset, select_asset assets bn arch = Except.ok a →
      a.name = bn ++ "-" ++ arch ∧ a ∈ assets)
  ∧ (∀ msg : String, select_asset assets bn arch = Except.error msg →
      msg = asset_not_found_msg arch assets
      ∧ mentions msg arch = true
      ∧ (∀ a : Asset, a ∈ assets → mentions msg a.name = true)
      ∧ (∀ a : Asset, a ∈ assets → a.name ≠ bn ++ "-" ++ arch)) := by
  constructor
  · intro a ha
    unfold select_asset at ha
    cases hf : assets.find? (fun x => x.name == bn ++ "-" ++ arch) with
    | none => rw [hf] at ha; cases ha
    | some b =>
      rw [hf] at ha
      injection ha with hba
      subst hba
      refine ⟨?_, List.mem_of_find?_eq_some hf⟩
      have hp := List.find?_some hf
      exact eq_of_beq (by simpa using hp)
  · intro msg hmsg
    unfold select_asset at hmsg
    cases hf : assets.find? (fun x => x.name == bn ++ "-" ++ arch) with
    | some b => rw [hf] at hmsg; cases hmsg
    | none =>
      rw [hf] at hmsg
      injection hmsg with hm
      subst hm
      refine ⟨rfl, ?_, ?_, ?_⟩
      · unfold mentions asset_not_found_msg
        have hd : ("Could not find binary for architecture: " ++ arch
              ++ ". Available assets: " ++ joinComma (assets.map fun a => a.name)).data
            = "Could not find binary for architecture: ".data ++ (arch.data
              ++ (". Available assets: ".data
                ++ (joinComma (assets.map fun a => a.name)).data)) := by
          rw [data_append, data_append, data_append, List.append_assoc, List.append_assoc]
        rw [hd]
        exact contains_append_left _ _ _ (contains_self_append _ _)
      · intro a ha
        unfold mentions asset_not_found_msg
        have hd : ("Could not find binary for architecture: " ++ arch
              ++ ". Available assets: " ++ joinComma (assets.map fun a => a.name)).data
            = ("Could not find binary for architecture: " ++ arch
                ++ ". Available assets: ").data
              ++ (joinComma (assets.map fun a => a.name)).data := by
          rw [data_append]
        rw [hd]
        exact contains_append_left _ _ _
          (mem_joinComma_contains _ _ (List.mem_map_of_mem _ ha))
      · intro a ha hname
        have hcontra := List.find?_eq_none.mp hf a ha
        apply hcontra
        simp [hname]

/-- Witness for the amended C5: the error text of the spec's example does
carry the platform triple. -/
theorem C5_amended_witness :
    mentions (asset_not_found_msg "aarch64-apple-darwin"
        [⟨"bin-x86_64-unknown-linux-gnu", "u"⟩]) "aarch64-apple-darwin" = true :=
  (((C5_amended [⟨"bin-x86_64-unknown-linux-gnu", "u"⟩] "bin" "aarch64-apple-darwin").2
    (asset_not_found_msg "aarch64-apple-darwin" [⟨"bin-x86_64-unknown-linux-gnu", "u"⟩])
    rfl).2).1

end MqUpdate
